import Mathlib

/-!
Verification development for the goosebumps quiz backend
(`packages/backend/convex/quizzes.ts`).

The Convex document store holds, for one quiz run, four collections:
quizzes (a single document in this model), players, rounds and
playerAnswers.  Mutations are atomic; scheduled work (`ctx.scheduler.runAfter`)
is modelled as a list of pending tasks returned alongside the new state.
`ctx.db.get(quizId)` on the quizzes table returns the single quiz iff the id
matches.  Convex `.unique()` returns the sole match, `null` when there is no
match, and throws when there are several; `.first()` returns the first match.
JavaScript `Math.floor(a / b)` on number division is modelled exactly by
flooring integer division `Int.fdiv` (the operands in the source are integer
millisecond quantities), and `String.prototype.trim` by `jsTrim` below.
-/

inductive Phase where
  | lobby | prompting | generating | answering | reveal | scoreboard | finished
deriving DecidableEq

structure QuizConfig where
  totalRounds : Int
  secondsPerQuestion : Int
  secondsForPrompt : Int
deriving DecidableEq

structure Quiz where
  id : Nat
  authorId : String
  name : String
  config : QuizConfig
  phase : Phase
  currentRoundIndex : Int
  joinCode : String
  answerDeadlineAt : Option Int
  promptDeadlineAt : Option Int
  createdAt : Int
  updatedAt : Int
deriving DecidableEq

structure Player where
  id : Nat
  quizId : Nat
  name : String
  deviceFingerprint : String
  isHost : Bool
  score : Int
  connectedAt : Int
  lastSeenAt : Int
  kickedAt : Option Int
deriving DecidableEq

structure AnswerOption where
  id : String
  text : String
  isCorrect : Bool
deriving DecidableEq

structure Round where
  id : Nat
  quizId : Nat
  roundIndex : Int
  prompterPlayerId : Nat
  promptText : Option String
  aiAnswerOptions : Option (List AnswerOption)
  aiErrored : Option Bool
  completedAt : Option Int
deriving DecidableEq

structure PlayerAnswer where
  quizId : Nat
  roundId : Nat
  playerId : Nat
  selectedOptionId : String
  isCorrect : Bool
  submittedAt : Int
deriving DecidableEq

structure QuizState where
  quiz : Quiz
  players : List Player
  rounds : List Round
  playerAnswers : List PlayerAnswer
deriving DecidableEq

deriving instance DecidableEq for Except

/-- Deferred work enqueued with `ctx.scheduler.runAfter(delayMs, fn, args)`. -/
inductive SchedTask where
  | autoLockInternal (quizId roundId : Nat)
  | autoLockTimer (quizId roundId : Nat) (expectedDeadline : Int)
  | generateAi (quizId roundId : Nat) (promptText : String)
deriving DecidableEq

/-- Result of one mutation handler: the committed state, the scheduled tasks
(delay in milliseconds paired with the task), and the handler's return value. -/
structure MutOut (α : Type) where
  state : QuizState
  sched : List (Int × SchedTask)
  ret : α
deriving DecidableEq

/-- Model of JavaScript `String.prototype.trim`. -/
def jsWhitespace (c : Char) : Bool :=
  c = ' ' || c = '\t' || c = '\n' || c = '\r'

def jsTrim (s : String) : String :=
  String.mk (((s.data.dropWhile jsWhitespace).reverse.dropWhile jsWhitespace).reverse)

/-- `ctx.db.get(quizId)` on the single-quiz store. -/
def getQuizDoc (s : QuizState) (qid : Nat) : Option Quiz :=
  if s.quiz.id = qid then some s.quiz else none

/-- `ctx.db.get(roundId)`. -/
def getRoundDoc (s : QuizState) (rid : Nat) : Option Round :=
  s.rounds.find? (fun r => r.id == rid)

/-- The `byQuiz` players index filtered on `isHost == false` and
`kickedAt == undefined`, as in every gameplay query of the source. -/
def eligiblePlayers (s : QuizState) (qid : Nat) : List Player :=
  s.players.filter (fun p => p.quizId == qid && !p.isHost && p.kickedAt.isNone)

/-- The `byRound` playerAnswers index. -/
def answersByRound (s : QuizState) (rid : Nat) : List PlayerAnswer :=
  s.playerAnswers.filter (fun a => a.roundId == rid)

/-- `players byQuiz` filtered on fingerprint, non-host, non-kicked, then
`.unique()` (submitAnswer's player lookup). -/
def findSubmitPlayer (s : QuizState) (qid : Nat) (fp : String) : Except String Player :=
  match s.players.filter
      (fun p => p.quizId == qid && p.deviceFingerprint == fp && !p.isHost && p.kickedAt.isNone) with
  | [] => .error "Player not found in this quiz"
  | [p] => .ok p
  | _ => .error "unique: more than one matching document"

/-- `playerAnswers byPlayerAndRound` then `.unique()`. -/
def uniqueExistingAnswer (s : QuizState) (pid rid : Nat) : Except String (Option PlayerAnswer) :=
  match s.playerAnswers.filter (fun a => a.playerId == pid && a.roundId == rid) with
  | [] => .ok none
  | [a] => .ok (some a)
  | _ => .error "unique: more than one matching document"

/-- `rounds byQuizIndex` at `(quizId, roundIndex)` then `.unique()`. -/
def activeRoundByIndex (s : QuizState) (qid : Nat) (idx : Int) : Except String (Option Round) :=
  match s.rounds.filter (fun r => r.quizId == qid && r.roundIndex == idx) with
  | [] => .ok none
  | [r] => .ok (some r)
  | _ => .error "unique: more than one matching document"

/-- Convex `ctx.db.insert` allocates a fresh id; modelled as one more than the
largest id in use in the table. -/
def freshPlayerId (s : QuizState) : Nat :=
  s.players.foldr (fun p m => max (p.id + 1) m) 0

def freshRoundId (s : QuizState) : Nat :=
  s.rounds.foldr (fun r m => max (r.id + 1) m) 0

def defaultPlayer : Player :=
  ⟨0, 0, "", "", false, 0, 0, 0, none⟩

/-- `ctx.db.patch(roundId, { completedAt: now })` as a map over the table. -/
def patchCompleted (rid : Nat) (now : Int) (r : Round) : Round :=
  if r.id == rid then { r with completedAt := some now } else r

/-- `ctx.db.patch(roundId, { aiErrored: true })` as a map over the table. -/
def patchErrored (rid : Nat) (r : Round) : Round :=
  if r.id == rid then { r with aiErrored := some true } else r

/-- `ctx.db.patch(playerId, { kickedAt: now })`. -/
def patchKicked (pid : Nat) (now : Int) (p : Player) : Player :=
  if p.id == pid then { p with kickedAt := some now } else p

/-- `ctx.db.patch(playerId, { lastSeenAt: now })`. -/
def patchSeen (pid : Nat) (now : Int) (p : Player) : Player :=
  if p.id == pid then { p with lastSeenAt := now } else p

/-- `ctx.db.patch(playerId, { score: score + points, lastSeenAt: now })`. -/
def patchScore (pid : Nat) (points now : Int) (p : Player) : Player :=
  if p.id == pid then { p with score := p.score + points, lastSeenAt := now } else p

/-- `endQuiz` (quizzes.ts lines 412-430). -/
def endQuiz (s : QuizState) (identity : Option String) (qid : Nat) (now : Int) :
    Except String (MutOut Bool) :=
  match identity with
  | none => .error "User must be authenticated"
  | some ident =>
    if s.quiz.id = qid then
      if s.quiz.authorId ≠ ident then .error "Only quiz author can end quiz"
      else
        .ok ⟨{ s with quiz := { s.quiz with
                 phase := Phase.finished,
                 answerDeadlineAt := none,
                 promptDeadlineAt := none,
                 updatedAt := now } }, [], true⟩
    else .error "Quiz not found"

inductive SkipRet where
  | notSkipped | toReveal
deriving DecidableEq

/-- `skipRound` (quizzes.ts lines 437-484). -/
def skipRound (s : QuizState) (identity : Option String) (qid : Nat) (now : Int) :
    Except String (MutOut SkipRet) :=
  match identity with
  | none => .error "User must be authenticated"
  | some ident =>
    if s.quiz.id = qid then
      if s.quiz.authorId ≠ ident then .error "Only quiz author can skip rounds"
      else if s.quiz.phase = Phase.finished ∨ s.quiz.phase = Phase.scoreboard then
        .ok ⟨s, [], SkipRet.notSkipped⟩
      else
        match activeRoundByIndex s qid s.quiz.currentRoundIndex with
        | .error e => .error e
        | .ok none => .error "No active round to skip"
        | .ok (some currentRound) =>
          if s.quiz.phase = Phase.answering then
            .ok ⟨s, [(0, SchedTask.autoLockInternal qid currentRound.id)], SkipRet.toReveal⟩
          else
            .ok ⟨{ s with
              rounds := s.rounds.map (patchCompleted currentRound.id now),
              quiz := { s.quiz with
                phase := Phase.reveal,
                promptDeadlineAt := none,
                updatedAt := now } }, [], SkipRet.toReveal⟩
    else .error "Quiz not found"

/-- `startGame` (quizzes.ts lines 490-550); the uniform random choice of the
prompter is modelled by an external index `rand`. -/
def startGame (s : QuizState) (identity : Option String) (qid : Nat) (rand : Nat) (now : Int) :
    Except String (MutOut Bool) :=
  match identity with
  | none => .error "User must be authenticated to start game"
  | some ident =>
    if s.quiz.id = qid then
      if s.quiz.authorId ≠ ident then .error "Only quiz author can start the game"
      else if s.quiz.phase ≠ Phase.lobby then .error "Game can only be started from lobby phase"
      else
        let players := eligiblePlayers s qid
        if players.length = 0 then .error "At least one player must join before starting"
        else
          let randomPrompter := players.getD (rand % players.length) defaultPlayer
          let promptDeadlineAt := now + s.quiz.config.secondsForPrompt * 1000
          .ok ⟨{ s with
            rounds := s.rounds ++ [⟨freshRoundId s, qid, 0, randomPrompter.id, none, none, none, none⟩],
            quiz := { s.quiz with
              phase := Phase.prompting,
              promptDeadlineAt := some promptDeadlineAt,
              updatedAt := now } }, [], true⟩
    else .error "Quiz not found"

/-- `submitPrompt` (quizzes.ts lines 556-618).  The source has a TODO instead
of a prompter-identity check, so no caller identity is consulted. -/
def submitPrompt (s : QuizState) (qid rid : Nat) (promptText : String) (now : Int) :
    Except String (MutOut Bool) :=
  if s.quiz.id = qid then
    if s.quiz.phase ≠ Phase.prompting then .error "Not in prompting phase"
    else
      match getRoundDoc s rid with
      | none => .error "Round not found or doesn't belong to this quiz"
      | some round =>
        if round.quizId ≠ qid then .error "Round not found or doesn't belong to this quiz"
        else if round.roundIndex ≠ s.quiz.currentRoundIndex then
          .error "Round is not the current active round"
        else
          let trimmedPrompt := jsTrim promptText
          if trimmedPrompt.length < 5 then .error "Prompt must be at least 5 characters"
          else if trimmedPrompt.length > 500 then .error "Prompt must be 500 characters or less"
          else
            .ok ⟨{ s with
              rounds := s.rounds.map (fun r =>
                if r.id == rid then { r with promptText := some trimmedPrompt } else r),
              quiz := { s.quiz with
                phase := Phase.generating,
                promptDeadlineAt := none,
                updatedAt := now } },
              [(0, SchedTask.generateAi qid rid trimmedPrompt)], true⟩
  else .error "Quiz not found"

/-- `advanceToAnswering` (quizzes.ts lines 761-808): the commit the AI
generation action runs after its network calls.  Note that, as in the source,
the only validation is that the quiz document exists — neither the phase nor
the active round index is re-checked. -/
def advanceToAnswering (s : QuizState) (qid rid : Nat)
    (aiAnswerOptions : List AnswerOption) (question : String) (now : Int) :
    Except String (MutOut Unit) :=
  if s.quiz.id = qid then
    let answerDeadlineAt := now + s.quiz.config.secondsPerQuestion * 1000
    .ok ⟨{ s with
      rounds := s.rounds.map (fun r =>
        if r.id == rid then
          { r with aiAnswerOptions := some aiAnswerOptions, promptText := some question }
        else r),
      quiz := { s.quiz with
        phase := Phase.answering,
        answerDeadlineAt := some answerDeadlineAt,
        updatedAt := now } },
      [(s.quiz.config.secondsPerQuestion * 1000,
        SchedTask.autoLockTimer qid rid answerDeadlineAt)], ()⟩
  else .error "Quiz not found"

/-- The scoring block of `submitAnswer` (quizzes.ts lines 884-897). -/
def computePoints (isCorrect : Bool) (answerDeadlineAt : Option Int)
    (secondsPerQuestion : Int) (now : Int) : Int :=
  if isCorrect then
    match answerDeadlineAt with
    | some dl =>
      let totalTimeMs := secondsPerQuestion * 1000
      let timeRemainingMs := dl - now
      let speedBonus := Int.fdiv (timeRemainingMs * 50) totalTimeMs
      100 + max 0 speedBonus
    | none => 100
  else 0

structure SubmitRet where
  isCorrect : Bool
  pointsEarned : Int
deriving DecidableEq

/-- `submitAnswer` (quizzes.ts lines 814-948). -/
def submitAnswer (s : QuizState) (qid rid : Nat) (selectedOptionId fp : String) (now : Int) :
    Except String (MutOut SubmitRet) :=
  if s.quiz.id = qid then
    if s.quiz.phase ≠ Phase.answering then .error "Not in answering phase"
    else
      match getRoundDoc s rid with
      | none => .error "Round not found or doesn't belong to this quiz"
      | some round =>
        if round.quizId ≠ qid then .error "Round not found or doesn't belong to this quiz"
        else if round.roundIndex ≠ s.quiz.currentRoundIndex then
          .error "Round is not the current active round"
        else
          match round.aiAnswerOptions with
          | none => .error "No answer options available for this round"
          | some options =>
            match options.find? (fun o => o.id == selectedOptionId) with
            | none => .error "Invalid answer option selected"
            | some selectedOption =>
              match findSubmitPlayer s qid fp with
              | .error e => .error e
              | .ok player =>
                match uniqueExistingAnswer s player.id rid with
                | .error e => .error e
                | .ok (some _) => .error "You have already answered this round"
                | .ok none =>
                  let points := computePoints selectedOption.isCorrect s.quiz.answerDeadlineAt
                    s.quiz.config.secondsPerQuestion now
                  let s1 : QuizState := { s with
                    playerAnswers := s.playerAnswers ++
                      [⟨qid, rid, player.id, selectedOptionId, selectedOption.isCorrect, now⟩],
                    players := s.players.map (patchScore player.id points now) }
                  let allPlayers := eligiblePlayers s1 qid
                  let allAnswers := answersByRound s1 rid
                  let sched :=
                    if 0 < allPlayers.length ∧ allPlayers.length ≤ allAnswers.length then
                      [((0 : Int), SchedTask.autoLockInternal qid rid)]
                    else []
                  .ok ⟨s1, sched, ⟨selectedOption.isCorrect, points⟩⟩
  else .error "Quiz not found"

/-- The synthetic "no answer" records inserted by the lock paths
(quizzes.ts lines 1006-1022 and 1296-1314). -/
def synthNoAnswers (qid rid : Nat) (players : List Player)
    (answers : List PlayerAnswer) (now : Int) : List PlayerAnswer :=
  (players.filter (fun p => !answers.any (fun a => a.playerId == p.id))).map
    (fun p => ⟨qid, rid, p.id, "", false, now⟩)

/-- The write block shared verbatim by `lockAnswers` and
`autoLockAnswersInternal`: insert a synthetic answer for every eligible player
lacking one, mark the round completed, move the quiz to `reveal` and clear
`answerDeadlineAt`. -/
def lockCommit (s : QuizState) (qid rid : Nat) (now : Int) : QuizState :=
  { s with
    playerAnswers := s.playerAnswers ++
      synthNoAnswers qid rid (eligiblePlayers s qid) (answersByRound s rid) now,
    rounds := s.rounds.map (patchCompleted rid now),
    quiz := { s.quiz with
      phase := Phase.reveal,
      answerDeadlineAt := none,
      updatedAt := now } }

/-- `lockAnswers` (quizzes.ts lines 954-1038): the host-facing mutation. -/
def lockAnswers (s : QuizState) (identity : Option String) (qid rid : Nat) (now : Int) :
    Except String (MutOut Bool) :=
  match identity with
  | none => .error "User must be authenticated"
  | some ident =>
    if s.quiz.id = qid then
      if s.quiz.authorId ≠ ident then .error "Only quiz author can lock answers"
      else if s.quiz.phase ≠ Phase.answering then
        .error "Can only lock answers during answering phase"
      else
        match getRoundDoc s rid with
        | none => .error "Round not found or doesn't belong to this quiz"
        | some round =>
          if round.quizId ≠ qid then .error "Round not found or doesn't belong to this quiz"
          else if round.roundIndex ≠ s.quiz.currentRoundIndex then
            .error "Round is not the current active round"
          else
            .ok ⟨lockCommit s qid rid now, [], true⟩
    else .error "Quiz not found"

inductive LockRet where
  | skipped | locked
deriving DecidableEq

/-- `autoLockAnswersInternal` (quizzes.ts lines 1261-1330): the phase-guarded
lock path used by the timer, the all-answered race and `skipRound`. -/
def autoLockAnswersInternal (s : QuizState) (qid rid : Nat) (now : Int) :
    Except String (MutOut LockRet) :=
  match getQuizDoc s qid with
  | none => .ok ⟨s, [], LockRet.skipped⟩
  | some quiz =>
    if quiz.phase ≠ Phase.answering then .ok ⟨s, [], LockRet.skipped⟩
    else
      match getRoundDoc s rid with
      | none => .ok ⟨s, [], LockRet.skipped⟩
      | some round =>
        if round.quizId ≠ qid ∨ round.roundIndex ≠ quiz.currentRoundIndex then
          .ok ⟨s, [], LockRet.skipped⟩
        else
          .ok ⟨lockCommit s qid rid now, [], LockRet.locked⟩

/-- `getQuizForAutoLock` (quizzes.ts lines 1210-1229).  The source condition
`!quiz.answerDeadlineAt` also rejects a deadline equal to the zero timestamp
(JavaScript falsiness), kept here faithfully. -/
def getQuizForAutoLock (s : QuizState) (qid : Nat) (expectedDeadline : Int) : Option Quiz :=
  match getQuizDoc s qid with
  | none => none
  | some quiz =>
    match quiz.answerDeadlineAt with
    | none => none
    | some d =>
      if quiz.phase ≠ Phase.answering then none
      else if d = 0 then none
      else if d ≠ expectedDeadline then none
      else some quiz

/-- `checkAllPlayersAnswered` (quizzes.ts lines 1234-1256). -/
def checkAllPlayersAnswered (s : QuizState) (qid rid : Nat) : Bool :=
  let players := eligiblePlayers s qid
  let answers := answersByRound s rid
  decide (0 < players.length) && decide (players.length ≤ answers.length)

inductive TimerRet where
  | staleSkip | allAnsweredSkip | timeoutLocked
deriving DecidableEq

/-- `autoLockAnswers` (quizzes.ts lines 1165-1205): the deadline-timer action,
which re-reads the session, confirms the deadline it was scheduled for is
still the active one, and only then funnels into the lock path. -/
def autoLockTimer (s : QuizState) (qid rid : Nat) (expectedDeadline now : Int) :
    Except String (MutOut TimerRet) :=
  match getQuizForAutoLock s qid expectedDeadline with
  | none => .ok ⟨s, [], TimerRet.staleSkip⟩
  | some _ =>
    if checkAllPlayersAnswered s qid rid then .ok ⟨s, [], TimerRet.allAnsweredSkip⟩
    else
      match autoLockAnswersInternal s qid rid now with
      | .error e => .error e
      | .ok m => .ok ⟨m.state, m.sched, TimerRet.timeoutLocked⟩

inductive AdvanceRet where
  | toScoreboard | toPrompting (nextRound : Int) | toFinished
deriving DecidableEq

/-- `advancePhase` (quizzes.ts lines 1044-1129). -/
def advancePhase (s : QuizState) (identity : Option String) (qid : Nat) (rand : Nat) (now : Int) :
    Except String (MutOut AdvanceRet) :=
  match identity with
  | none => .error "User must be authenticated"
  | some ident =>
    if s.quiz.id = qid then
      if s.quiz.authorId ≠ ident then .error "Only quiz author can advance phases"
      else if s.quiz.phase = Phase.reveal then
        .ok ⟨{ s with quiz := { s.quiz with phase := Phase.scoreboard, updatedAt := now } },
          [], AdvanceRet.toScoreboard⟩
      else if s.quiz.phase = Phase.scoreboard then
        let nextRoundIndex := s.quiz.currentRoundIndex + 1
        if nextRoundIndex < s.quiz.config.totalRounds then
          let players := eligiblePlayers s qid
          if players.length = 0 then .error "No players available for next round"
          else
            let randomPrompter := players.getD (rand % players.length) defaultPlayer
            let promptDeadlineAt := now + s.quiz.config.secondsForPrompt * 1000
            .ok ⟨{ s with
              rounds := s.rounds ++
                [⟨freshRoundId s, qid, nextRoundIndex, randomPrompter.id, none, none, none, none⟩],
              quiz := { s.quiz with
                phase := Phase.prompting,
                currentRoundIndex := nextRoundIndex,
                promptDeadlineAt := some promptDeadlineAt,
                updatedAt := now } }, [], AdvanceRet.toPrompting nextRoundIndex⟩
        else
          .ok ⟨{ s with quiz := { s.quiz with phase := Phase.finished, updatedAt := now } },
            [], AdvanceRet.toFinished⟩
      else .error "Cannot advance from phase"
    else .error "Quiz not found"

/-- `markRoundErrored` (quizzes.ts lines 1335-1351). -/
def markRoundErrored (s : QuizState) (rid : Nat) : Except String (MutOut Unit) :=
  .ok ⟨{ s with rounds := s.rounds.map (patchErrored rid) }, [], ()⟩

/-- `kickPlayer` (quizzes.ts lines 377-407). -/
def kickPlayer (s : QuizState) (identity : Option String) (qid pid : Nat) (now : Int) :
    Except String (MutOut Bool) :=
  match identity with
  | none => .error "User must be authenticated"
  | some ident =>
    if s.quiz.id = qid then
      if s.quiz.authorId ≠ ident then .error "Only quiz author can kick players"
      else
        match s.players.find? (fun p => p.id == pid) with
        | none => .error "Player not found in this quiz"
        | some player =>
          if player.quizId ≠ qid then .error "Player not found in this quiz"
          else if player.isHost then .error "Cannot kick the host"
          else
            .ok ⟨{ s with players := s.players.map (patchKicked pid now) }, [], true⟩
    else .error "Quiz not found"

/-- `joinQuiz` (quizzes.ts lines 278-372). -/
def joinQuiz (s : QuizState) (joinCode name fp : String) (now : Int) :
    Except String (MutOut Nat) :=
  if joinCode = s.quiz.joinCode then
    let qid := s.quiz.id
    match s.players.find?
        (fun p => p.quizId == qid && p.deviceFingerprint == fp && p.kickedAt.isNone) with
    | some existing =>
      .ok ⟨{ s with players := s.players.map (patchSeen existing.id now) }, [], existing.id⟩
    | none =>
      if s.quiz.phase ≠ Phase.lobby then .error "Quiz has already started or finished"
      else if jsTrim name = "" ∨ name.length > 20 then .error "Name must be 1-20 characters"
      else
        match s.players.find?
            (fun p => p.quizId == qid && p.name == jsTrim name && p.kickedAt.isNone) with
        | some _ => .error "Name already taken in this quiz"
        | none =>
          match s.players.find?
              (fun p => p.quizId == qid && p.deviceFingerprint == fp && p.kickedAt.isNone) with
          | some _ => .error "Device already has a player in this quiz"
          | none =>
            if 50 ≤ (s.players.filter (fun p => p.quizId == qid && p.kickedAt.isNone)).length then
              .error "Quiz is full (maximum 50 players)"
            else
              let pid := freshPlayerId s
              .ok ⟨{ s with players := s.players ++
                [⟨pid, qid, jsTrim name, fp, false, 0, now, now, none⟩] }, [], pid⟩
  else .error "Quiz not found"

/-- `updateQuizConfig` (quizzes.ts lines 234-273). -/
def updateQuizConfig (s : QuizState) (identity : Option String) (qid : Nat)
    (config : QuizConfig) (now : Int) : Except String (MutOut Bool) :=
  match identity with
  | none => .error "User must be authenticated to update quiz"
  | some ident =>
    if s.quiz.id = qid then
      if s.quiz.authorId ≠ ident then .error "Only quiz author can update configuration"
      else if s.quiz.phase ≠ Phase.lobby then
        .error "Quiz configuration can only be updated in lobby phase"
      else
        .ok ⟨{ s with quiz := { s.quiz with config := config, updatedAt := now } }, [], true⟩
    else .error "Quiz not found"

/-- The state `createQuiz` (quizzes.ts lines 110-179) leaves behind: a lobby
quiz and its host player record. -/
def initState (authorId hostName quizName : String) (config : QuizConfig)
    (joinCode : String) (now : Int) : QuizState :=
  { quiz := ⟨0, authorId, quizName, config, Phase.lobby, 0, joinCode, none, none, now, now⟩,
    players := [⟨0, 0, hostName, "host", true, 0, now, now, none⟩],
    rounds := [],
    playerAnswers := [] }

/-- Every state-mutating entry point of quizzes.ts, with the data each one
draws from outside the store (caller identity, clock, random choice,
AI output) made explicit. -/
inductive Op where
  | endQuiz (identity : Option String) (qid : Nat) (now : Int)
  | skipRound (identity : Option String) (qid : Nat) (now : Int)
  | startGame (identity : Option String) (qid : Nat) (rand : Nat) (now : Int)
  | submitPrompt (qid rid : Nat) (text : String) (now : Int)
  | advanceToAnswering (qid rid : Nat) (opts : List AnswerOption) (question : String) (now : Int)
  | submitAnswer (qid rid : Nat) (optId fp : String) (now : Int)
  | lockAnswers (identity : Option String) (qid rid : Nat) (now : Int)
  | advancePhase (identity : Option String) (qid : Nat) (rand : Nat) (now : Int)
  | autoLockInternal (qid rid : Nat) (now : Int)
  | autoLockTimer (qid rid : Nat) (expectedDeadline now : Int)
  | markRoundErrored (rid : Nat)
  | kickPlayer (identity : Option String) (qid pid : Nat) (now : Int)
  | joinQuiz (joinCode name fp : String) (now : Int)
  | updateQuizConfig (identity : Option String) (qid : Nat) (config : QuizConfig) (now : Int)

/-- The state an operation leaves behind: a thrown error rolls the atomic
mutation back, so the state is unchanged. -/
def outState {α : Type} (s : QuizState) : Except String (MutOut α) → QuizState
  | .error _ => s
  | .ok m => m.state

def stepOp (s : QuizState) : Op → QuizState
  | .endQuiz i qid now => outState s (endQuiz s i qid now)
  | .skipRound i qid now => outState s (skipRound s i qid now)
  | .startGame i qid rand now => outState s (startGame s i qid rand now)
  | .submitPrompt qid rid text now => outState s (submitPrompt s qid rid text now)
  | .advanceToAnswering qid rid opts q now => outState s (advanceToAnswering s qid rid opts q now)
  | .submitAnswer qid rid optId fp now => outState s (submitAnswer s qid rid optId fp now)
  | .lockAnswers i qid rid now => outState s (lockAnswers s i qid rid now)
  | .advancePhase i qid rand now => outState s (advancePhase s i qid rand now)
  | .autoLockInternal qid rid now => outState s (autoLockAnswersInternal s qid rid now)
  | .autoLockTimer qid rid dl now => outState s (autoLockTimer s qid rid dl now)
  | .markRoundErrored rid => outState s (markRoundErrored s rid)
  | .kickPlayer i qid pid now => outState s (kickPlayer s i qid pid now)
  | .joinQuiz code name fp now => outState s (joinQuiz s code name fp now)
  | .updateQuizConfig i qid cfg now => outState s (updateQuizConfig s i qid cfg now)

/-! Concrete executions used by the counterexamples and scenario theorems. -/

def fourOptions : List AnswerOption :=
  [⟨"correct", "A", true⟩, ⟨"distractor_1", "B", false⟩,
   ⟨"distractor_2", "C", false⟩, ⟨"distractor_3", "D", false⟩]

/-- Run A: one player, the host skips the round while AI generation is in
flight, then the stale `advanceToAnswering` commit lands. -/
def cfgA : QuizConfig := ⟨1, 30, 30⟩

def sA0 : QuizState := initState "h" "Host" "quiz" cfgA "JOIN01" 0

def sA1 : QuizState := stepOp sA0 (Op.joinQuiz "JOIN01" "alice" "fp1" 1)

def sA2 : QuizState := stepOp sA1 (Op.startGame (some "h") 0 0 2)

def sA3 : QuizState := stepOp sA2 (Op.submitPrompt 0 0 "test prompt" 3)

def sA4 : QuizState := stepOp sA3 (Op.skipRound (some "h") 0 4)

def sA5 : QuizState := stepOp sA4 (Op.advanceToAnswering 0 0 fourOptions "AI question" 5)

/-- Run C: two rounds; the host skips round 0 while generation is in flight
and advances into round 1's prompting phase before the stale commit lands. -/
def cfgC : QuizConfig := ⟨2, 30, 30⟩

def sC0 : QuizState := initState "h" "Host" "quiz" cfgC "JOIN01" 0

def sC1 : QuizState := stepOp sC0 (Op.joinQuiz "JOIN01" "alice" "fp1" 1)

def sC2 : QuizState := stepOp sC1 (Op.startGame (some "h") 0 0 2)

def sC3 : QuizState := stepOp sC2 (Op.submitPrompt 0 0 "test prompt" 3)

def sC4 : QuizState := stepOp sC3 (Op.skipRound (some "h") 0 4)

def sC5 : QuizState := stepOp sC4 (Op.advancePhase (some "h") 0 0 5)

def sC6 : QuizState := stepOp sC5 (Op.advancePhase (some "h") 0 0 6)

def sC7 : QuizState := stepOp sC6 (Op.advanceToAnswering 0 0 fourOptions "AI question" 7)

/-- Run B: two players; both answer before the deadline. -/
def sB0 : QuizState := initState "h" "Host" "quiz" cfgA "JOIN01" 0

def sB1 : QuizState := stepOp sB0 (Op.joinQuiz "JOIN01" "alice" "fp1" 1)

def sB2 : QuizState := stepOp sB1 (Op.joinQuiz "JOIN01" "bob" "fp2" 2)

def sB3 : QuizState := stepOp sB2 (Op.startGame (some "h") 0 0 3)

def sB4 : QuizState := stepOp sB3 (Op.submitPrompt 0 0 "test prompt" 4)

def sB5 : QuizState := stepOp sB4 (Op.advanceToAnswering 0 0 fourOptions "AI question" 5)

def outB6 : Except String (MutOut SubmitRet) := submitAnswer sB5 0 0 "correct" "fp1" 1000

def sB6 : QuizState := outState sB5 outB6

def outB7 : Except String (MutOut SubmitRet) := submitAnswer sB6 0 0 "distractor_1" "fp2" 2000

def sB7 : QuizState := outState sB6 outB7

def sB8 : QuizState := stepOp sB7 (Op.autoLockInternal 0 0 2000)

/-- A single answering-phase state whose deadline lies far in the future
relative to `now = 0`: the full answer window is 1000 ms but 3000 ms remain. -/
def c1State : QuizState :=
  { quiz := ⟨0, "h", "quiz", ⟨1, 1, 30⟩, Phase.answering, 0, "JOIN01", some 3000, none, 0, 0⟩,
    players := [⟨0, 0, "Host", "host", true, 0, 0, 0, none⟩,
                ⟨1, 0, "alice", "fp1", false, 0, 0, 0, none⟩],
    rounds := [⟨0, 0, 0, 1, some "test prompt", some fourOptions, none, none⟩],
    playerAnswers := [] }

example : ((submitAnswer c1State 0 0 "correct" "fp1" 0).map (fun m => m.ret.pointsEarned)) =
    Except.ok 250 := by decide

/-! Claim-level definitions. -/

/-- The deadline invariant of §3: each deadline field is set iff the session
is in the corresponding phase (which also forces at most one to be set). -/
def DeadlineInv (s : QuizState) : Prop :=
  (s.quiz.answerDeadlineAt ≠ none ↔ s.quiz.phase = Phase.answering) ∧
  (s.quiz.promptDeadlineAt ≠ none ↔ s.quiz.phase = Phase.prompting)

instance (s : QuizState) : Decidable (DeadlineInv s) := by
  unfold DeadlineInv; infer_instance

/-- At most one PlayerAnswer per `(playerId, roundId)` pair. -/
def AnswerUnique (s : QuizState) : Prop :=
  s.playerAnswers.Pairwise (fun a b => ¬(a.playerId = b.playerId ∧ a.roundId = b.roundId))

/-- Store well-formedness: distinct player ids (the store's primary keys) and
the answer-uniqueness invariant. -/
def WellFormed (s : QuizState) : Prop :=
  (s.players.map Player.id).Nodup ∧ AnswerUnique s

def isAdvancePhaseOp : Op → Bool
  | .advancePhase _ _ _ _ => true
  | _ => false

def isAdvanceToAnsweringOp : Op → Bool
  | .advanceToAnswering _ _ _ _ _ => true
  | _ => false

/-- Operations other than `submitPrompt` and `advanceToAnswering`, the two
writers of `promptText`. -/
def promptTextFrameOp : Op → Bool
  | .submitPrompt _ _ _ _ => false
  | .advanceToAnswering _ _ _ _ _ => false
  | _ => true

/-- The `(id, promptText)` column of the rounds table. -/
def promptTexts (s : QuizState) : List (Nat × Option String) :=
  s.rounds.map (fun r => (r.id, r.promptText))

/-- C1, counterexample. In the accepted submission from `c1State` (answering
phase, deadline 3000 ms away, 1000 ms answer window, correct option), the
awarded points are 250: the speed bonus `floor(remainingMs / totalTimeMs * 50)`
is only clamped below by `Math.max(0, ...)`, never above by 50, so the claimed
bound `100 <= points <= 150` fails when `now` is more than one full answer
window before the deadline. -/
theorem c1_counterexample :
    ((submitAnswer c1State 0 0 "correct" "fp1" 0).map (fun m => m.ret.pointsEarned)) =
      Except.ok 250 ∧
    ¬((100 : Int) ≤ 250 ∧ (250 : Int) ≤ 150) := by
  constructor
  · decide
  · decide

/-- C2, the code at the failing input. After `submitPrompt` schedules AI
generation (sA3, phase `generating`), the host skips the round: sA4 is in
phase `reveal` with the round marked completed. The stale `advanceToAnswering`
commit then lands and — performing no phase or active-round re-validation —
moves the finished-with round's session back into `answering` and arms a new
answer deadline. -/
theorem c2_bug :
    sA3.quiz.phase = Phase.generating ∧
    sA4.quiz.phase = Phase.reveal ∧
    (sA4.rounds.map Round.completedAt) = [some 4] ∧
    sA5.quiz.phase = Phase.answering ∧
    sA5.quiz.answerDeadlineAt = some 30005 := by
  refine ⟨?_, ?_, ?_, ?_, ?_⟩ <;> decide

/-- C3, counterexample. The host-facing `lockAnswers` mutation is a
phase-transition entry point, and a stale invocation of it (here on sA4,
whose phase has already moved to `reveal`) is rejected with a thrown error,
not absorbed as a successful skipped no-op. -/
theorem c3_counterexample :
    lockAnswers sA4 (some "h") 0 0 99 =
      Except.error "Can only lock answers during answering phase" := by
  decide

/-- C6, counterexample. sC6 (round 1's prompting phase) satisfies the deadline
invariant, and `advanceToAnswering` is one of the listed operations; yet the
stale commit for skipped round 0 produces sC7 with `phase = answering`,
`answerDeadlineAt` set and `promptDeadlineAt` still set — two deadlines at
once, one of them outside its phase. -/
theorem c6_counterexample :
    DeadlineInv sC6 ∧
    sC7 = stepOp sC6 (Op.advanceToAnswering 0 0 fourOptions "AI question" 7) ∧
    sC7.quiz.answerDeadlineAt = some 30007 ∧
    sC7.quiz.promptDeadlineAt = some 30006 ∧
    ¬ DeadlineInv sC7 := by
  refine ⟨?_, rfl, ?_, ?_, ?_⟩ <;> decide

/-- C8, counterexample. The prompter's trimmed text is stored at sA3, but the
later `advanceToAnswering` commit overwrites the round's `promptText` with the
AI-generated question, so the field does not keep the prompter's value for the
rest of the round's life. -/
theorem c8_counterexample :
    (sA3.rounds.map Round.promptText) = [some "test prompt"] ∧
    ((stepOp sA3 (Op.advanceToAnswering 0 0 fourOptions "AI question" 4)).rounds.map
      Round.promptText) = [some "AI question"] ∧
    some "AI question" ≠ some "test prompt" := by
  refine ⟨?_, ?_, ?_⟩ <;> decide

/-- C10. `endQuiz` checks only authentication and ownership — no phase guard:
from any phase (including `finished`) it succeeds, sets the phase to
`finished` and clears both deadline fields; a second call succeeds as well and
is idempotent (with the same clock value it reproduces the state exactly; with
a later clock only `updatedAt` differs). -/
theorem c10_end_quiz (s : QuizState) (a : String) (qid : Nat) (now now2 : Int)
    (ha : a = s.quiz.authorId) (hq : qid = s.quiz.id) :
    ∃ s1 : QuizState,
      endQuiz s (some a) qid now = Except.ok ⟨s1, [], true⟩ ∧
      s1.quiz.phase = Phase.finished ∧
      s1.quiz.answerDeadlineAt = none ∧
      s1.quiz.promptDeadlineAt = none ∧
      endQuiz s1 (some a) qid now = Except.ok ⟨s1, [], true⟩ ∧
      endQuiz s1 (some a) qid now2 =
        Except.ok ⟨{ s1 with quiz := { s1.quiz with updatedAt := now2 } }, [], true⟩ := by
  subst ha hq
  refine ⟨{ s with quiz := { s.quiz with phase := Phase.finished, answerDeadlineAt := none, promptDeadlineAt := none, updatedAt := now } }, ?_, rfl, rfl, rfl, ?_, ?_⟩ <;>
    simp [endQuiz]

/-- C10, witness. -/
theorem c10_end_quiz_witness :
    ∃ s1 : QuizState,
      endQuiz sA0 (some "h") 0 5 = Except.ok ⟨s1, [], true⟩ ∧
      s1.quiz.phase = Phase.finished ∧
      s1.quiz.answerDeadlineAt = none ∧
      s1.quiz.promptDeadlineAt = none ∧
      endQuiz s1 (some "h") 0 5 = Except.ok ⟨s1, [], true⟩ ∧
      endQuiz s1 (some "h") 0 6 =
        Except.ok ⟨{ s1 with quiz := { s1.quiz with updatedAt := 6 } }, [], true⟩ :=
  c10_end_quiz sA0 "h" 0 5 6 rfl rfl

/-- `autoLockAnswersInternal` never throws: it either leaves the state alone
(a skip) or commits the shared lock block. -/
theorem autoLockInternal_state (s : QuizState) (qid rid : Nat) (now : Int) (m : MutOut LockRet)
    (h : autoLockAnswersInternal s qid rid now = Except.ok m) :
    m.state = s ∨ m.state = lockCommit s qid rid now := by
  unfold autoLockAnswersInternal getQuizDoc at h
  repeat' split at h
  all_goals simp only [Except.ok.injEq] at h
  all_goals subst h
  · left; rfl
  · left; rfl
  · left; rfl
  · left; rfl
  · right; rfl

/-- C7. Across every operation, `currentRoundIndex` either stays unchanged or
increases by exactly 1, and the latter happens only on `advancePhase`'s
scoreboard-to-prompting transition. -/
theorem c7_round_index_monotone (s : QuizState) (o : Op) :
    (stepOp s o).quiz.currentRoundIndex = s.quiz.currentRoundIndex ∨
    ((stepOp s o).quiz.currentRoundIndex = s.quiz.currentRoundIndex + 1 ∧
      isAdvancePhaseOp o = true ∧ s.quiz.phase = Phase.scoreboard ∧
      (stepOp s o).quiz.phase = Phase.prompting) := by
  cases o with
  | endQuiz i qid now =>
    left
    cases i <;> simp only [stepOp, endQuiz] <;> (repeat' split) <;> simp [outState]
  | skipRound i qid now =>
    left
    cases i <;> simp only [stepOp, skipRound] <;> (repeat' split) <;> simp [outState]
  | startGame i qid rand now =>
    left
    cases i <;> simp only [stepOp, startGame] <;> (repeat' split) <;> simp [outState]
  | submitPrompt qid rid text now =>
    left
    simp only [stepOp, submitPrompt] <;> (repeat' split) <;> simp [outState]
  | advanceToAnswering qid rid opts q now =>
    left
    simp only [stepOp, advanceToAnswering] <;> (repeat' split) <;> simp [outState]
  | submitAnswer qid rid optId fp now =>
    left
    simp only [stepOp, submitAnswer] <;> (repeat' split) <;> simp [outState]
  | lockAnswers i qid rid now =>
    left
    cases i <;> simp only [stepOp, lockAnswers] <;> (repeat' split) <;>
      simp [outState, lockCommit]
  | advancePhase i qid rand now =>
    cases i with
    | none => left; simp [stepOp, advancePhase, outState]
    | some ident =>
      simp only [stepOp, advancePhase]
      repeat' split
      all_goals simp_all [outState, isAdvancePhaseOp]
  | autoLockInternal qid rid now =>
    left
    simp only [stepOp, autoLockAnswersInternal, getQuizDoc] <;> (repeat' split) <;>
      simp [outState, lockCommit]
  | autoLockTimer qid rid dl now =>
    left
    simp only [stepOp, autoLockTimer]
    cases hm : autoLockAnswersInternal s qid rid now with
    | error e => (repeat' split) <;> simp_all [outState]
    | ok m =>
      rcases autoLockInternal_state s qid rid now m hm with h1 | h1 <;>
        (repeat' split) <;> simp_all [outState, lockCommit]
  | markRoundErrored rid =>
    left
    simp [stepOp, markRoundErrored, outState]
  | kickPlayer i qid pid now =>
    left
    cases i <;> simp only [stepOp, kickPlayer] <;> (repeat' split) <;> simp [outState]
  | joinQuiz code name fp now =>
    left
    simp only [stepOp, joinQuiz] <;> (repeat' split) <;> simp [outState]
  | updateQuizConfig i qid cfg now =>
    left
    cases i <;> simp only [stepOp, updateQuizConfig] <;> (repeat' split) <;> simp [outState]

@[simp] theorem getQuizDoc_eq_some (s : QuizState) (qid : Nat) (q : Quiz) :
    getQuizDoc s qid = some q ↔ (s.quiz.id = qid ∧ s.quiz = q) := by
  unfold getQuizDoc
  split <;> simp_all

@[simp] theorem getQuizDoc_eq_none (s : QuizState) (qid : Nat) :
    getQuizDoc s qid = none ↔ s.quiz.id ≠ qid := by
  unfold getQuizDoc
  split <;> simp_all

@[simp] theorem getQuizForAutoLock_eq_some (s : QuizState) (qid : Nat) (dl : Int) (q : Quiz) :
    getQuizForAutoLock s qid dl = some q ↔
      (s.quiz.id = qid ∧ s.quiz = q ∧ s.quiz.phase = Phase.answering ∧
       s.quiz.answerDeadlineAt = some dl ∧ dl ≠ 0) := by
  unfold getQuizForAutoLock
  repeat' split
  all_goals simp_all
  all_goals (intro h; subst h)
  all_goals aesop

/-- C3, amended. The deferred lock paths absorb stale calls as successful
skipped no-ops with no state change: `autoLockAnswersInternal` when the phase
has already moved on from `answering`, and the `autoLockAnswers` timer
callback when `answerDeadlineAt` no longer matches the deadline it was
scheduled for.  (The host-facing `lockAnswers` mutation, by contrast, rejects
a stale call with a thrown error — see the counterexample.) -/
theorem c3_amended :
    (∀ (s : QuizState) (qid rid : Nat) (now : Int), s.quiz.phase ≠ Phase.answering →
      autoLockAnswersInternal s qid rid now = Except.ok ⟨s, [], LockRet.skipped⟩) ∧
    (∀ (s : QuizState) (qid rid : Nat) (expectedDeadline now : Int),
      s.quiz.answerDeadlineAt ≠ some expectedDeadline →
      autoLockTimer s qid rid expectedDeadline now = Except.ok ⟨s, [], TimerRet.staleSkip⟩) := by
  constructor
  · intro s qid rid now h
    unfold autoLockAnswersInternal
    repeat' split
    all_goals simp_all
  · intro s qid rid expectedDeadline now h
    unfold autoLockTimer
    repeat' split
    all_goals simp_all

/-- C3, witness. -/
theorem c3_amended_witness :
    autoLockAnswersInternal sA4 0 0 50 = Except.ok ⟨sA4, [], LockRet.skipped⟩ ∧
    autoLockTimer sA4 0 0 123 50 = Except.ok ⟨sA4, [], TimerRet.staleSkip⟩ :=
  ⟨c3_amended.1 sA4 0 0 50 (by decide), c3_amended.2 sA4 0 0 123 50 (by decide)⟩

/-- C6, amended. The fresh `createQuiz` state satisfies the deadline
invariant, and every operation preserves it, with one caveat forced by the
counterexample: `advanceToAnswering` (which sets `answerDeadlineAt` but never
clears `promptDeadlineAt`) preserves it only when it runs in the `generating`
phase it is meant for — a stale run in any other phase can violate the
invariant. -/
theorem c6_amended :
    (∀ (authorId hostName quizName : String) (config : QuizConfig) (joinCode : String)
      (now : Int), DeadlineInv (initState authorId hostName quizName config joinCode now)) ∧
    (∀ (s : QuizState) (o : Op), DeadlineInv s →
      (isAdvanceToAnsweringOp o = true → s.quiz.phase = Phase.generating) →
      DeadlineInv (stepOp s o)) := by
  constructor
  · intro authorId hostName quizName config joinCode now
    simp [initState, DeadlineInv]
  · intro s o h1 h2
    cases o with
    | endQuiz i qid now =>
      cases i <;> simp only [stepOp, endQuiz] <;> (repeat' split) <;>
        simp_all [DeadlineInv, outState]
    | skipRound i qid now =>
      cases i <;> simp only [stepOp, skipRound] <;> (repeat' split) <;>
        simp_all [DeadlineInv, outState]
    | startGame i qid rand now =>
      cases i <;> simp only [stepOp, startGame] <;> (repeat' split) <;>
        simp_all [DeadlineInv, outState]
    | submitPrompt qid rid text now =>
      simp only [stepOp, submitPrompt]
      repeat' split
      all_goals simp_all [DeadlineInv, outState]
    | advanceToAnswering qid rid opts q now =>
      simp only [stepOp, advanceToAnswering]
      repeat' split
      all_goals simp_all [DeadlineInv, outState, isAdvanceToAnsweringOp]
    | submitAnswer qid rid optId fp now =>
      simp only [stepOp, submitAnswer]
      repeat' split
      all_goals simp_all [DeadlineInv, outState]
    | lockAnswers i qid rid now =>
      cases i <;> simp only [stepOp, lockAnswers] <;> (repeat' split) <;>
        simp_all [DeadlineInv, outState, lockCommit]
    | advancePhase i qid rand now =>
      cases i <;> simp only [stepOp, advancePhase] <;> (repeat' split) <;>
        simp_all [DeadlineInv, outState]
    | autoLockInternal qid rid now =>
      simp only [stepOp, autoLockAnswersInternal]
      repeat' split
      all_goals simp_all [DeadlineInv, outState, lockCommit]
    | autoLockTimer qid rid dl now =>
      simp only [stepOp, autoLockTimer]
      cases hm : autoLockAnswersInternal s qid rid now with
      | error e => (repeat' split) <;> simp_all [DeadlineInv, outState]
      | ok m =>
        rcases autoLockInternal_state s qid rid now m hm with h3 | h3 <;>
          (repeat' split) <;> simp_all [DeadlineInv, outState, lockCommit] <;> aesop
    | markRoundErrored rid =>
      simp_all [stepOp, markRoundErrored, outState, DeadlineInv]
    | kickPlayer i qid pid now =>
      cases i <;> simp only [stepOp, kickPlayer] <;> (repeat' split) <;>
        simp_all [DeadlineInv, outState]
    | joinQuiz code name fp now =>
      simp only [stepOp, joinQuiz]
      repeat' split
      all_goals simp_all [DeadlineInv, outState]
    | updateQuizConfig i qid cfg now =>
      cases i <;> simp only [stepOp, updateQuizConfig] <;> (repeat' split) <;>
        simp_all [DeadlineInv, outState]

/-- C6, witness. -/
theorem c6_amended_witness :
    DeadlineInv (initState "h" "Host" "quiz" cfgA "JOIN01" 0) ∧
    DeadlineInv (stepOp sA1 (Op.startGame (some "h") 0 0 2)) :=
  ⟨c6_amended.1 "h" "Host" "quiz" cfgA "JOIN01" 0,
    c6_amended.2 sA1 (Op.startGame (some "h") 0 0 2) (by decide) (by decide)⟩

@[simp] theorem patchCompleted_id (rid : Nat) (now : Int) (r : Round) :
    (patchCompleted rid now r).id = r.id := by
  unfold patchCompleted
  split <;> simp_all

@[simp] theorem patchCompleted_promptText (rid : Nat) (now : Int) (r : Round) :
    (patchCompleted rid now r).promptText = r.promptText := by
  unfold patchCompleted
  split <;> rfl

@[simp] theorem patchErrored_id (rid : Nat) (r : Round) :
    (patchErrored rid r).id = r.id := by
  unfold patchErrored
  split <;> simp_all

@[simp] theorem patchErrored_promptText (rid : Nat) (r : Round) :
    (patchErrored rid r).promptText = r.promptText := by
  unfold patchErrored
  split <;> rfl

/-- C8, amended. `submitPrompt` stores the prompter's trimmed text, and the
`advanceToAnswering` commit later overwrites the same field with the
AI-generated question; apart from these two writers, no operation changes the
`promptText` of any existing round — the rounds' `(id, promptText)` column is
only ever extended with freshly inserted rounds (whose `promptText` starts
unset). -/
theorem c8_amended (s : QuizState) (o : Op) (h : promptTextFrameOp o = true) :
    ∃ ext : List (Nat × Option String), promptTexts (stepOp s o) = promptTexts s ++ ext := by
  cases o with
  | endQuiz i qid now =>
    refine ⟨[], ?_⟩
    cases i <;> simp only [stepOp, endQuiz] <;> (repeat' split) <;>
      simp [outState, promptTexts]
  | skipRound i qid now =>
    refine ⟨[], ?_⟩
    cases i <;> simp only [stepOp, skipRound] <;> (repeat' split) <;>
      simp [outState, promptTexts]
  | startGame i qid rand now =>
    cases i with
    | none => exact ⟨[], by simp [stepOp, startGame, outState]⟩
    | some ident =>
      simp only [stepOp, startGame]
      repeat' split
      all_goals
        first
        | (refine ⟨[], ?_⟩; simp [outState, promptTexts]; done)
        | (refine ⟨[(freshRoundId s, (none : Option String))], ?_⟩; simp [outState, promptTexts]; done)
  | submitPrompt qid rid text now => simp [promptTextFrameOp] at h
  | advanceToAnswering qid rid opts q now => simp [promptTextFrameOp] at h
  | submitAnswer qid rid optId fp now =>
    refine ⟨[], ?_⟩
    simp only [stepOp, submitAnswer]
    repeat' split
    all_goals simp [outState, promptTexts]
  | lockAnswers i qid rid now =>
    refine ⟨[], ?_⟩
    cases i <;> simp only [stepOp, lockAnswers] <;> (repeat' split) <;>
      simp [outState, promptTexts, lockCommit]
  | advancePhase i qid rand now =>
    cases i with
    | none => exact ⟨[], by simp [stepOp, advancePhase, outState]⟩
    | some ident =>
      simp only [stepOp, advancePhase]
      repeat' split
      all_goals
        first
        | (refine ⟨[], ?_⟩; simp [outState, promptTexts]; done)
        | (refine ⟨[(freshRoundId s, (none : Option String))], ?_⟩; simp [outState, promptTexts]; done)
  | autoLockInternal qid rid now =>
    refine ⟨[], ?_⟩
    simp only [stepOp, autoLockAnswersInternal]
    repeat' split
    all_goals simp [outState, promptTexts, lockCommit]
  | autoLockTimer qid rid dl now =>
    refine ⟨[], ?_⟩
    simp only [stepOp, autoLockTimer]
    cases hm : autoLockAnswersInternal s qid rid now with
    | error e => (repeat' split) <;> simp_all [outState]
    | ok m =>
      rcases autoLockInternal_state s qid rid now m hm with h3 | h3 <;>
        (repeat' split) <;> simp_all [outState, promptTexts, lockCommit]
  | markRoundErrored rid =>
    exact ⟨[], by simp [stepOp, markRoundErrored, outState, promptTexts]⟩
  | kickPlayer i qid pid now =>
    refine ⟨[], ?_⟩
    cases i <;> simp only [stepOp, kickPlayer] <;> (repeat' split) <;>
      simp [outState, promptTexts]
  | joinQuiz code name fp now =>
    refine ⟨[], ?_⟩
    simp only [stepOp, joinQuiz]
    repeat' split
    all_goals simp [outState, promptTexts]
  | updateQuizConfig i qid cfg now =>
    refine ⟨[], ?_⟩
    cases i <;> simp only [stepOp, updateQuizConfig] <;> (repeat' split) <;>
      simp [outState, promptTexts]

/-- C8, witness. -/
theorem c8_amended_witness :
    ∃ ext : List (Nat × Option String),
      promptTexts (stepOp sA3 (Op.skipRound (some "h") 0 4)) = promptTexts sA3 ++ ext :=
  c8_amended sA3 (Op.skipRound (some "h") 0 4) rfl

@[simp] theorem patchKicked_id (pid : Nat) (now : Int) (p : Player) :
    (patchKicked pid now p).id = p.id := by
  unfold patchKicked
  split <;> rfl

@[simp] theorem patchSeen_id (pid : Nat) (now : Int) (p : Player) :
    (patchSeen pid now p).id = p.id := by
  unfold patchSeen
  split <;> rfl

@[simp] theorem patchScore_id (pid : Nat) (points now : Int) (p : Player) :
    (patchScore pid points now p).id = p.id := by
  unfold patchScore
  split <;> rfl

@[simp] theorem patchScore_quizId (pid : Nat) (points now : Int) (p : Player) :
    (patchScore pid points now p).quizId = p.quizId := by
  unfold patchScore
  split <;> rfl

@[simp] theorem patchScore_isHost (pid : Nat) (points now : Int) (p : Player) :
    (patchScore pid points now p).isHost = p.isHost := by
  unfold patchScore
  split <;> rfl

@[simp] theorem patchScore_kickedAt (pid : Nat) (points now : Int) (p : Player) :
    (patchScore pid points now p).kickedAt = p.kickedAt := by
  unfold patchScore
  split <;> rfl

theorem mem_lt_foldMax (l : List Player) (p : Player) (hp : p ∈ l) :
    p.id < l.foldr (fun q m => max (q.id + 1) m) 0 := by
  induction l with
  | nil => cases hp
  | cons b t ih =>
    rcases List.mem_cons.mp hp with rfl | hpt
    · exact Nat.lt_of_lt_of_le (Nat.lt_succ_self _) (le_max_left _ _)
    · exact Nat.lt_of_lt_of_le (ih hpt) (le_max_right _ _)

theorem freshPlayerId_fresh (s : QuizState) (p : Player) (hp : p ∈ s.players) :
    p.id ≠ freshPlayerId s :=
  Nat.ne_of_lt (mem_lt_foldMax s.players p hp)

/-- In a list of players whose ids are distinct, filtering on a member's id
returns that member alone. -/
theorem filter_id_singleton {l : List Player}
    (hnd : l.Pairwise (fun a b => a.id ≠ b.id)) {p : Player} (hp : p ∈ l) :
    l.filter (fun q => q.id == p.id) = [p] := by
  induction l with
  | nil => cases hp
  | cons b t ih =>
    rw [List.pairwise_cons] at hnd
    obtain ⟨hb, ht⟩ := hnd
    rcases List.mem_cons.mp hp with rfl | hpt
    · have hnone : t.filter (fun q => q.id == p.id) = [] := by
        rw [List.filter_eq_nil_iff]
        intro x hx
        simpa using (hb x hx).symm
      simp [List.filter_cons, hnone]
    · have hbf : (b.id == p.id) = false := by
        simpa using hb p hpt
      simp [List.filter_cons, hbf, ih ht hpt]

/-- The ids of a quiz-state's players are distinct exactly when the players are
pairwise id-distinct. -/
theorem nodup_map_id_iff (l : List Player) :
    (l.map Player.id).Nodup ↔ l.Pairwise (fun a b => a.id ≠ b.id) := by
  unfold List.Nodup
  rw [List.pairwise_map]

theorem findSubmitPlayer_ok {s : QuizState} {qid : Nat} {fp : String} {p : Player}
    (h : findSubmitPlayer s qid fp = Except.ok p) :
    p ∈ s.players ∧ p.quizId = qid ∧ p.deviceFingerprint = fp ∧
      p.isHost = false ∧ p.kickedAt = none := by
  unfold findSubmitPlayer at h
  split at h
  · cases h
  · rename_i p2 heq
    cases h
    have hmem : p ∈ s.players.filter
        (fun q => q.quizId == qid && q.deviceFingerprint == fp && !q.isHost &&
          q.kickedAt.isNone) := by
      rw [heq]
      exact List.mem_singleton_self p
    obtain ⟨h1, h2⟩ := List.mem_filter.mp hmem
    simp only [Bool.and_eq_true, beq_iff_eq, Bool.not_eq_true',
      Option.isNone_iff_eq_none] at h2
    exact ⟨h1, h2.1.1.1, h2.1.1.2, h2.1.2, h2.2⟩
  · cases h

theorem uniqueExistingAnswer_none {s : QuizState} {pid rid : Nat}
    (h : uniqueExistingAnswer s pid rid = Except.ok none) :
    ∀ x ∈ s.playerAnswers, ¬(x.playerId = pid ∧ x.roundId = rid) := by
  unfold uniqueExistingAnswer at h
  split at h
  · rename_i heq
    intro x hx hc
    have hmem : x ∈ s.playerAnswers.filter
        (fun a => a.playerId == pid && a.roundId == rid) :=
      List.mem_filter.mpr ⟨hx, by simp [hc.1, hc.2]⟩
    rw [heq] at hmem
    cases hmem
  · cases h
  · cases h

/-- In a pairwise-distinct answer list, filtering on a member's
`(playerId, roundId)` pair returns that member alone. -/
theorem filter_pair_singleton {l : List PlayerAnswer} (pid rid : Nat)
    (hl : l.Pairwise (fun a b => ¬(a.playerId = b.playerId ∧ a.roundId = b.roundId)))
    {a : PlayerAnswer} (ha : a ∈ l) (h1 : a.playerId = pid) (h2 : a.roundId = rid) :
    l.filter (fun x => x.playerId == pid && x.roundId == rid) = [a] := by
  induction l with
  | nil => cases ha
  | cons b t ih =>
    rw [List.pairwise_cons] at hl
    obtain ⟨hb, ht⟩ := hl
    rcases List.mem_cons.mp ha with rfl | hat
    · have hnone : t.filter (fun x => x.playerId == pid && x.roundId == rid) = [] := by
        rw [List.filter_eq_nil_iff]
        intro x hx
        have hbx := hb x hx
        simp only [Bool.and_eq_true, beq_iff_eq, not_and]
        intro hxp hxr
        exact absurd ⟨h1.trans hxp.symm, h2.trans hxr.symm⟩ hbx
      simp [List.filter_cons, h1, h2, hnone]
    · have hbf : (b.playerId == pid && b.roundId == rid) = false := by
        have hba := hb a hat
        by_contra hcon
        rw [Bool.not_eq_false] at hcon
        simp only [Bool.and_eq_true, beq_iff_eq] at hcon
        exact hba ⟨hcon.1.trans h1.symm, hcon.2.trans h2.symm⟩
      simp [List.filter_cons, hbf, ih ht hat]

/-- Under the uniqueness invariant, a matching answer makes the `.unique()`
lookup return exactly that answer. -/
theorem uniqueExistingAnswer_dup {s : QuizState} {pid rid : Nat} {a : PlayerAnswer}
    (hw : AnswerUnique s) (ha : a ∈ s.playerAnswers)
    (h1 : a.playerId = pid) (h2 : a.roundId = rid) :
    uniqueExistingAnswer s pid rid = Except.ok (some a) := by
  unfold uniqueExistingAnswer
  rw [filter_pair_singleton pid rid hw ha h1 h2]

instance (s : QuizState) : Decidable (AnswerUnique s) := by
  unfold AnswerUnique; infer_instance

instance (s : QuizState) : Decidable (WellFormed s) := by
  unfold WellFormed; infer_instance

theorem nodup_ids_map_patch (l : List Player) (f : Player → Player)
    (hf : ∀ p, (f p).id = p.id) (h : (l.map Player.id).Nodup) :
    ((l.map f).map Player.id).Nodup := by
  have hmap : (l.map f).map Player.id = l.map Player.id := by
    rw [List.map_map]
    exact List.map_congr_left (fun a _ => hf a)
  rw [hmap]
  exact h

/-- Touching neither the players nor the answers preserves well-formedness. -/
theorem wellFormed_set (s : QuizState) (q : Quiz) (rs : List Round)
    (hw : WellFormed s) : WellFormed ⟨q, s.players, rs, s.playerAnswers⟩ :=
  hw

theorem wellFormed_patchPlayers (s : QuizState) (q : Quiz) (rs : List Round)
    (f : Player → Player) (hf : ∀ p, (f p).id = p.id) (hw : WellFormed s) :
    WellFormed ⟨q, s.players.map f, rs, s.playerAnswers⟩ :=
  ⟨nodup_ids_map_patch s.players f hf hw.1, hw.2⟩

theorem wellFormed_append_fresh (s : QuizState) (newP : Player)
    (hid : newP.id = freshPlayerId s) (hw : WellFormed s) :
    WellFormed { s with players := s.players ++ [newP] } := by
  refine ⟨?_, hw.2⟩
  show ((s.players ++ [newP]).map Player.id).Nodup
  rw [List.map_append, List.nodup_append]
  refine ⟨hw.1, List.nodup_singleton _, ?_⟩
  intro x hx hy
  obtain ⟨p, hp, rfl⟩ := List.mem_map.mp hx
  simp only [List.map_cons, List.map_nil, List.mem_singleton] at hy
  exact freshPlayerId_fresh s p hp (hy.trans hid)

/-- The lock commit preserves the answer-uniqueness invariant: it inserts one
synthetic answer per eligible unanswered player, each for a distinct player id
none of which already has an answer for this round. -/
theorem lockCommit_wellFormed (s : QuizState) (qid rid : Nat) (now : Int)
    (hw : WellFormed s) : WellFormed (lockCommit s qid rid now) := by
  obtain ⟨hnd, hau⟩ := hw
  refine ⟨hnd, ?_⟩
  show (s.playerAnswers ++
    synthNoAnswers qid rid (eligiblePlayers s qid) (answersByRound s rid) now).Pairwise _
  rw [List.pairwise_append]
  refine ⟨hau, ?_, ?_⟩
  · unfold synthNoAnswers
    rw [List.pairwise_map]
    have h0 : s.players.Pairwise (fun a b => a.id ≠ b.id) :=
      (nodup_map_id_iff s.players).mp hnd
    have h1 : (eligiblePlayers s qid).Pairwise (fun a b => a.id ≠ b.id) :=
      h0.sublist (List.filter_sublist _)
    have h2 := h1.sublist (List.filter_sublist
      (l := eligiblePlayers s qid)
      (p := fun p => !(answersByRound s rid).any (fun a => a.playerId == p.id)))
    exact h2.imp (fun hne hc => hne hc.1)
  · intro x hx y hy
    unfold synthNoAnswers at hy
    obtain ⟨p, hp, rfl⟩ := List.mem_map.mp hy
    obtain ⟨hpe, hpg⟩ := List.mem_filter.mp hp
    intro hc
    have hxmem : x ∈ answersByRound s rid :=
      List.mem_filter.mpr ⟨hx, by simp [hc.2]⟩
    have hany : (answersByRound s rid).any (fun a => a.playerId == p.id) = true :=
      List.any_eq_true.mpr ⟨x, hxmem, by simp [hc.1]⟩
    simp [hany] at hpg

theorem submit_insert_wellFormed (s : QuizState) (qid rid : Nat) (player : Player)
    (optId : String) (isC : Bool) (now points : Int) (hw : WellFormed s)
    (hue : uniqueExistingAnswer s player.id rid = Except.ok none) :
    WellFormed { s with
      playerAnswers := s.playerAnswers ++ [⟨qid, rid, player.id, optId, isC, now⟩],
      players := s.players.map (patchScore player.id points now) } := by
  refine ⟨nodup_ids_map_patch s.players _ (fun p => by simp) hw.1, ?_⟩
  show (s.playerAnswers ++ [(⟨qid, rid, player.id, optId, isC, now⟩ : PlayerAnswer)]).Pairwise _
  rw [List.pairwise_append]
  refine ⟨hw.2, List.pairwise_singleton _ _, ?_⟩
  intro x hx y hy
  rw [List.mem_singleton] at hy
  subst hy
  intro hc
  exact uniqueExistingAnswer_none hue x hx ⟨hc.1, hc.2⟩

/-- C4. First conjunct: every operation preserves store well-formedness, in
particular the invariant that at most one PlayerAnswer exists per
`(playerId, roundId)` pair.  Second conjunct: a `submitAnswer` call that
passes the earlier guards but finds an existing answer for the calling
player and round is rejected with the AlreadyAnswered error, and the state
— including the player's cumulative score — is unchanged. -/
theorem c4_answer_unique :
    (∀ (s : QuizState) (o : Op), WellFormed s → WellFormed (stepOp s o)) ∧
    (∀ (s : QuizState) (qid rid : Nat) (optId fp : String) (now : Int) (round : Round)
      (options : List AnswerOption) (opt : AnswerOption) (p : Player) (a : PlayerAnswer),
      WellFormed s → s.quiz.id = qid → s.quiz.phase = Phase.answering →
      getRoundDoc s rid = some round → round.quizId = qid →
      round.roundIndex = s.quiz.currentRoundIndex →
      round.aiAnswerOptions = some options →
      options.find? (fun o2 => o2.id == optId) = some opt →
      findSubmitPlayer s qid fp = Except.ok p →
      a ∈ s.playerAnswers → a.playerId = p.id → a.roundId = rid →
      submitAnswer s qid rid optId fp now =
        Except.error "You have already answered this round" ∧
      stepOp s (Op.submitAnswer qid rid optId fp now) = s) := by
  constructor
  · intro s o hw
    cases o with
    | endQuiz i qid now =>
      cases i <;> simp only [stepOp, endQuiz] <;> (repeat' split) <;>
        first | exact hw | exact wellFormed_set s _ _ hw
    | skipRound i qid now =>
      cases i <;> simp only [stepOp, skipRound] <;> (repeat' split) <;>
        first | exact hw | exact wellFormed_set s _ _ hw
    | startGame i qid rand now =>
      cases i <;> simp only [stepOp, startGame] <;> (repeat' split) <;>
        first | exact hw | exact wellFormed_set s _ _ hw
    | submitPrompt qid rid text now =>
      simp only [stepOp, submitPrompt]
      repeat' split
      all_goals first | exact hw | exact wellFormed_set s _ _ hw
    | advanceToAnswering qid rid opts q now =>
      simp only [stepOp, advanceToAnswering]
      repeat' split
      all_goals first | exact hw | exact wellFormed_set s _ _ hw
    | submitAnswer qid rid optId fp now =>
      simp only [stepOp, submitAnswer]
      repeat' split
      all_goals
        first
        | exact hw
        | (rename_i hue hcond
           exact submit_insert_wellFormed s qid rid _ optId _ now _ hw hue)
    | lockAnswers i qid rid now =>
      cases i <;> simp only [stepOp, lockAnswers] <;> (repeat' split) <;>
        first | exact hw | exact lockCommit_wellFormed s qid rid now hw
    | advancePhase i qid rand now =>
      cases i <;> simp only [stepOp, advancePhase] <;> (repeat' split) <;>
        first | exact hw | exact wellFormed_set s _ _ hw
    | autoLockInternal qid rid now =>
      simp only [stepOp, autoLockAnswersInternal]
      repeat' split
      all_goals first | exact hw | exact lockCommit_wellFormed s qid rid now hw
    | autoLockTimer qid rid dl now =>
      simp only [stepOp, autoLockTimer]
      repeat' split
      all_goals
        first
        | exact hw
        | (rename_i m heq
           rcases autoLockInternal_state _ _ _ _ _ heq with h3 | h3 <;> rw [h3] <;>
             first | exact hw | exact lockCommit_wellFormed _ _ _ _ hw)
    | markRoundErrored rid =>
      simp only [stepOp, markRoundErrored]
      exact wellFormed_set s _ _ hw
    | kickPlayer i qid pid now =>
      cases i <;> simp only [stepOp, kickPlayer] <;> (repeat' split) <;>
        first
        | exact hw
        | exact wellFormed_patchPlayers s _ _ _ (fun p => by simp) hw
    | joinQuiz code name fp now =>
      simp only [stepOp, joinQuiz]
      repeat' split
      all_goals
        first
        | exact hw
        | exact wellFormed_patchPlayers s _ _ _ (fun p => by simp) hw
        | exact wellFormed_append_fresh s _ rfl hw
    | updateQuizConfig i qid cfg now =>
      cases i <;> simp only [stepOp, updateQuizConfig] <;> (repeat' split) <;>
        first | exact hw | exact wellFormed_set s _ _ hw
  · intro s qid rid optId fp now round options opt p a hw hid hph hrd hrq hri hopts hfind
      hpl ha hapid harid
    have hdup := uniqueExistingAnswer_dup hw.2 ha hapid harid
    constructor
    · simp [submitAnswer, hid, hph, hrd, hrq, hri, hopts, hfind, hpl, hdup]
    · simp [stepOp, submitAnswer, outState, hid, hph, hrd, hrq, hri, hopts, hfind, hpl, hdup]

def roundB6 : Round := ⟨0, 0, 0, 1, some "AI question", some fourOptions, none, none⟩

def aliceB6 : Player := ⟨1, 0, "alice", "fp1", false, 148, 1, 1000, none⟩

def ansB6 : PlayerAnswer := ⟨0, 0, 1, "correct", true, 1000⟩

/-- C4, witness. -/
theorem c4_answer_unique_witness :
    WellFormed (stepOp sB5 (Op.submitAnswer 0 0 "correct" "fp1" 1000)) ∧
    (submitAnswer sB6 0 0 "correct" "fp1" 1500 =
        Except.error "You have already answered this round" ∧
      stepOp sB6 (Op.submitAnswer 0 0 "correct" "fp1" 1500) = sB6) :=
  ⟨c4_answer_unique.1 sB5 (Op.submitAnswer 0 0 "correct" "fp1" 1000) (by decide),
   c4_answer_unique.2 sB6 0 0 "correct" "fp1" 1500 roundB6 fourOptions
     ⟨"correct", "A", true⟩ aliceB6 ansB6 (by decide) (by decide) (by decide) (by decide)
     (by decide) (by decide) (by decide) (by decide) (by decide) (by decide) (by decide)
     (by decide)⟩

theorem autoLockInternal_skips (s : QuizState) (qid rid : Nat) (now : Int)
    (h : s.quiz.phase ≠ Phase.answering) :
    autoLockAnswersInternal s qid rid now = Except.ok ⟨s, [], LockRet.skipped⟩ := by
  unfold autoLockAnswersInternal
  repeat' split
  all_goals simp_all

theorem autoLockInternal_locked (s : QuizState) (qid rid : Nat) (now : Int)
    (m : MutOut LockRet) (h : autoLockAnswersInternal s qid rid now = Except.ok m)
    (hret : m.ret = LockRet.locked) :
    m.state = lockCommit s qid rid now ∧ s.quiz.id = qid ∧
      s.quiz.phase = Phase.answering := by
  unfold autoLockAnswersInternal at h
  repeat' split at h
  all_goals (simp only [Except.ok.injEq] at h; subst h)
  all_goals simp_all
  all_goals aesop

theorem filter_map_comm {α β : Type} (f : α → β) (pr : β → Bool) (l : List α) :
    (l.map f).filter pr = (l.filter (fun a => pr (f a))).map f := by
  induction l with
  | nil => rfl
  | cons a t ih => by_cases h : pr (f a) <;> simp [h, ih]

/-- C5. If an `autoLockAnswersInternal` run actually locks the round, then
(i) running it again on the resulting state is a skipped no-op that changes
nothing, and (ii) each eligible player who had no answer for the round ends up
with exactly one PlayerAnswer for it — the synthetic
`selectedOptionId = "", isCorrect = false` record — not two. -/
theorem c5_lock_idempotent :
    ∀ (s : QuizState) (qid rid : Nat) (now now2 : Int) (m : MutOut LockRet),
      WellFormed s →
      autoLockAnswersInternal s qid rid now = Except.ok m →
      m.ret = LockRet.locked →
      (autoLockAnswersInternal m.state qid rid now2 =
        Except.ok ⟨m.state, [], LockRet.skipped⟩) ∧
      (∀ p ∈ eligiblePlayers s qid,
        s.playerAnswers.filter (fun x => x.playerId == p.id && x.roundId == rid) = [] →
        m.state.playerAnswers.filter (fun x => x.playerId == p.id && x.roundId == rid) =
          [⟨qid, rid, p.id, "", false, now⟩]) := by
  intro s qid rid now now2 m hw h hret
  obtain ⟨hstate, hqid, hph⟩ := autoLockInternal_locked s qid rid now m h hret
  constructor
  · rw [hstate]
    exact autoLockInternal_skips _ qid rid now2 (by simp [lockCommit])
  · intro p hp hempty
    rw [hstate]
    simp only [lockCommit]
    rw [List.filter_append, hempty]
    unfold synthNoAnswers
    rw [filter_map_comm]
    have hany : (answersByRound s rid).any (fun a => a.playerId == p.id) = false := by
      rw [List.any_eq_false]
      intro a hamem
      obtain ⟨haans, harid⟩ := List.mem_filter.mp hamem
      simp only [beq_iff_eq]
      intro hpid
      have hmem2 : a ∈ s.playerAnswers.filter
          (fun x => x.playerId == p.id && x.roundId == rid) :=
        List.mem_filter.mpr ⟨haans, by simp [hpid, harid]⟩
      rw [hempty] at hmem2
      cases hmem2
    have hpmiss : p ∈ (eligiblePlayers s qid).filter
        (fun q => !(answersByRound s rid).any (fun a => a.playerId == q.id)) :=
      List.mem_filter.mpr ⟨hp, by simp [hany]⟩
    have hmisspw : ((eligiblePlayers s qid).filter
        (fun q => !(answersByRound s rid).any (fun a => a.playerId == q.id))).Pairwise
        (fun a b => a.id ≠ b.id) := by
      have h0 : s.players.Pairwise (fun a b => a.id ≠ b.id) :=
        (nodup_map_id_iff s.players).mp hw.1
      exact (h0.sublist (List.filter_sublist _)).sublist (List.filter_sublist _)
    have hpred : ∀ q ∈ (eligiblePlayers s qid).filter
        (fun q => !(answersByRound s rid).any (fun a => a.playerId == q.id)),
        ((⟨qid, rid, q.id, "", false, now⟩ : PlayerAnswer).playerId == p.id &&
          (⟨qid, rid, q.id, "", false, now⟩ : PlayerAnswer).roundId == rid) =
          (q.id == p.id) := by
      intro q _
      simp
    rw [List.filter_congr hpred, filter_id_singleton hmisspw hpmiss]
    simp

def mC5 : MutOut LockRet := ⟨lockCommit sB5 0 0 9, [], LockRet.locked⟩

/-- C5, witness. -/
theorem c5_lock_idempotent_witness :
    (autoLockAnswersInternal mC5.state 0 0 10 =
      Except.ok ⟨mC5.state, [], LockRet.skipped⟩) ∧
    (∀ p ∈ eligiblePlayers sB5 0,
      sB5.playerAnswers.filter (fun x => x.playerId == p.id && x.roundId == 0) = [] →
      mC5.state.playerAnswers.filter (fun x => x.playerId == p.id && x.roundId == 0) =
        [⟨0, 0, p.id, "", false, 9⟩]) :=
  c5_lock_idempotent sB5 0 0 9 10 mC5 (by decide) (by decide) (by decide)

theorem submitAnswer_ok_shape (s : QuizState) (qid rid : Nat) (optId fp : String)
    (now : Int) (m : MutOut SubmitRet)
    (h : submitAnswer s qid rid optId fp now = Except.ok m) :
    ∃ (player : Player) (points : Int) (isC : Bool),
      findSubmitPlayer s qid fp = Except.ok player ∧
      m.state = { s with
        playerAnswers := s.playerAnswers ++ [⟨qid, rid, player.id, optId, isC, now⟩],
        players := s.players.map (patchScore player.id points now) } ∧
      (m.sched = [((0 : Int), SchedTask.autoLockInternal qid rid)] ∨
        (m.sched = [] ∧
          ¬(0 < (eligiblePlayers m.state qid).length ∧
            (eligiblePlayers m.state qid).length ≤ (answersByRound m.state rid).length))) := by
  simp only [submitAnswer] at h
  repeat' split at h
  all_goals first
    | exact Except.noConfusion h
    | (simp only [Except.ok.injEq] at h
       subst h
       refine ⟨_, _, _, by assumption, rfl, ?_⟩
       first
       | exact Or.inl rfl
       | exact Or.inr ⟨rfl, by assumption⟩)

theorem eligible_pos_of_mem (ps : List Player) (qid : Nat) (q : Quiz) (rs : List Round)
    (ans : List PlayerAnswer) (p : Player) (hp : p ∈ ps) (h1 : p.quizId = qid)
    (h2 : p.isHost = false) (h3 : p.kickedAt = none) :
    0 < (eligiblePlayers ⟨q, ps, rs, ans⟩ qid).length := by
  have hmem : p ∈ eligiblePlayers ⟨q, ps, rs, ans⟩ qid :=
    List.mem_filter.mpr ⟨hp, by simp [h1, h2, h3]⟩
  exact List.length_pos.mpr (List.ne_nil_of_mem hmem)

/-- C9. First conjunct: for every accepted `submitAnswer`, if afterwards the
round's answer count reaches the eligible (non-host, non-kicked) player count,
the mutation schedules the zero-delay deferred call into the phase-guarded
lock path (the count precondition `allPlayers.length > 0` is automatic: the
accepted submitter is an eligible player).  Second conjunct, scenario B: with
two eligible players both answering, the first submission schedules nothing,
the second schedules the lock, exactly two PlayerAnswers are recorded, and
running the scheduled lock moves the session to `reveal` with still exactly
two PlayerAnswers. -/
theorem c9_all_answered :
    (∀ (s : QuizState) (qid rid : Nat) (optId fp : String) (now : Int)
      (m : MutOut SubmitRet),
      submitAnswer s qid rid optId fp now = Except.ok m →
      (eligiblePlayers m.state qid).length ≤ (answersByRound m.state rid).length →
      m.sched = [((0 : Int), SchedTask.autoLockInternal qid rid)]) ∧
    ((outB6.map MutOut.sched) = Except.ok [] ∧
     (outB7.map MutOut.sched) = Except.ok [((0 : Int), SchedTask.autoLockInternal 0 0)] ∧
     (answersByRound sB7 0).length = 2 ∧
     sB8.quiz.phase = Phase.reveal ∧
     (answersByRound sB8 0).length = 2) := by
  constructor
  · intro s qid rid optId fp now m h hcount
    obtain ⟨player, points, isC, hfsp, hstate, hsched⟩ :=
      submitAnswer_ok_shape s qid rid optId fp now m h
    rcases hsched with h1 | ⟨h1, hneg⟩
    · exact h1
    · exfalso
      apply hneg
      refine ⟨?_, hcount⟩
      rw [hstate]
      obtain ⟨hmem, hqid, hfp, hhost, hkick⟩ := findSubmitPlayer_ok hfsp
      exact eligible_pos_of_mem _ qid _ _ _ (patchScore player.id points now player)
        (List.mem_map_of_mem _ hmem) (by simp [hqid]) (by simp [hhost]) (by simp [hkick])
  · refine ⟨?_, ?_, ?_, ?_, ?_⟩ <;> decide

/-- C9, witness. -/
theorem c9_all_answered_witness :
    (⟨sB7, [((0 : Int), SchedTask.autoLockInternal 0 0)], ⟨false, 0⟩⟩ :
        MutOut SubmitRet).sched = [((0 : Int), SchedTask.autoLockInternal 0 0)] :=
  c9_all_answered.1 sB6 0 0 "distractor_1" "fp2" 2000
    ⟨sB7, [((0 : Int), SchedTask.autoLockInternal 0 0)], ⟨false, 0⟩⟩
    (by decide) (by decide)

/-- C1, amended. Incorrect answers always earn 0 points.  Correct answers earn
`100 + max(0, floor(remainingMs * 50 / totalTimeMs))`: the speed bonus is
clamped below at 0 but — unlike the claim — not above at 50, so the
`100 ≤ points ≤ 150` bound holds exactly when the submission time is no more
than one full answer window before the deadline
(`answerDeadlineAt ≤ now + secondsPerQuestion * 1000`, which covers every
`now` at or after the moment the deadline was armed); for earlier `now` the
total exceeds 150 (see the counterexample).  The points a successful
`submitAnswer` returns are exactly this function of the quiz's deadline,
configuration and clock. -/
theorem c1_amended :
    (∀ (dl spq now : Int), 0 < spq → dl ≤ now + spq * 1000 →
      100 ≤ computePoints true (some dl) spq now ∧
      computePoints true (some dl) spq now ≤ 150) ∧
    (∀ (dlo : Option Int) (spq now : Int), computePoints false dlo spq now = 0) ∧
    (∀ (s : QuizState) (qid rid : Nat) (optId fp : String) (now : Int)
      (m : MutOut SubmitRet),
      submitAnswer s qid rid optId fp now = Except.ok m →
      m.ret.pointsEarned = computePoints m.ret.isCorrect s.quiz.answerDeadlineAt
        s.quiz.config.secondsPerQuestion now) := by
  refine ⟨?_, ?_, ?_⟩
  · intro dl spq now hspq hdl
    have hcp : computePoints true (some dl) spq now =
        100 + max 0 (Int.fdiv ((dl - now) * 50) (spq * 1000)) := rfl
    have ht : (0 : Int) < spq * 1000 := by positivity
    have hr : (dl - now) * 50 ≤ (spq * 1000) * 50 := by
      have hrem : dl - now ≤ spq * 1000 := by linarith
      exact mul_le_mul_of_nonneg_right hrem (by norm_num)
    have hb : Int.fdiv ((dl - now) * 50) (spq * 1000) ≤ 50 := by
      rw [Int.fdiv_eq_ediv _ (le_of_lt ht)]
      calc (dl - now) * 50 / (spq * 1000)
          ≤ (spq * 1000) * 50 / (spq * 1000) := Int.ediv_le_ediv ht hr
        _ = 50 := Int.mul_ediv_cancel_left _ (ne_of_gt ht)
    rw [hcp]
    constructor
    · exact le_add_of_nonneg_right (le_max_left 0 _)
    · calc 100 + max 0 (Int.fdiv ((dl - now) * 50) (spq * 1000))
          ≤ 100 + 50 := add_le_add_left (max_le (by norm_num) hb) 100
        _ = 150 := by norm_num
  · intro dlo spq now
    rfl
  · intro s qid rid optId fp now m h
    simp only [submitAnswer] at h
    repeat' split at h
    all_goals first
      | exact Except.noConfusion h
      | (simp only [Except.ok.injEq] at h
         subst h
         rfl)

/-- C1, witness. -/
theorem c1_amended_witness :
    (100 ≤ computePoints true (some 1000) 1 500 ∧
      computePoints true (some 1000) 1 500 ≤ 150) ∧
    computePoints false (some 1000) 1 500 = 0 ∧
    (⟨sB6, [], ⟨true, 148⟩⟩ : MutOut SubmitRet).ret.pointsEarned =
      computePoints true sB5.quiz.answerDeadlineAt sB5.quiz.config.secondsPerQuestion 1000 :=
  ⟨c1_amended.1 1000 1 500 (by decide) (by decide),
   c1_amended.2.1 (some 1000) 1 500,
   c1_amended.2.2 sB5 0 0 "correct" "fp1" 1000 ⟨sB6, [], ⟨true, 148⟩⟩ (by decide)⟩
